import Mathlib

/-!
Verification development for the Hyperliquid copy-trading engine.

This file gives a shallow embedding, in Lean 4, of the decision logic of the
copy-trading bot: the leverage matcher, the position sizer, the wallet
monitor's event dispatch, the order/fill handlers of `main.py`, and the
executor's trigger-order construction, size formatting and action hashing
(`copy_engine/executor.py`).  Python floats are idealised as rationals (ℚ),
with Python's `round` modelled as round-half-to-even; Python dicts from the
stream are modelled as structures; fallible paths return `Option` or tagged
result types.  Each embedded function follows the corresponding source
function line by line; deviations (such as eliding logging or network I/O)
are noted in the doc comments.
-/

namespace CopyTrader

/-! ### Python numeric primitives -/

/-- Python's `round(x)` to the nearest integer: round half to even
(banker's rounding), as CPython does for floats. -/
def rhe (x : ℚ) : ℤ :=
  let f := ⌊x⌋
  let r := x - (f : ℚ)
  if r < 1/2 then f
  else if 1/2 < r then f + 1
  else if f % 2 = 0 then f else f + 1

/-- Python's `round(size, d)` to `d` decimal places (idealised over ℚ). -/
def round_size (s : ℚ) (d : ℕ) : ℚ := (rhe (s * (10:ℚ) ^ d) : ℚ) / (10:ℚ) ^ d

/-- Fuel-driven base-10 logarithm on naturals: `log10fuel fuel n` is the
number of times `n` can be divided by 10 before falling below 10, provided
`n ≤ fuel`.  Structural recursion keeps it kernel-computable. -/
def log10fuel : ℕ → ℕ → ℕ
  | 0, _ => 0
  | fuel+1, n => if n < 10 then 0 else log10fuel fuel (n / 10) + 1

/-- Number of decimal digits of `n` minus one (0 for `n = 0`). -/
def natLog10 (n : ℕ) : ℕ := log10fuel n n

/-- For a positive rational `x`, the exponent `k` with `10^k ≤ x < 10^(k+1)`. -/
def qOrder10 (x : ℚ) : ℤ :=
  if 1 ≤ x then (natLog10 ⌊x⌋.toNat : ℤ)
  else
    let y := x⁻¹
    let j := natLog10 ⌊y⌋.toNat
    if y ≤ (10:ℚ) ^ j then -(j : ℤ) else -((j : ℤ) + 1)

/-- Rounding of a positive rational to 5 significant figures. -/
def g5pos (x : ℚ) : ℚ :=
  let k := qOrder10 x
  (rhe (x * (10:ℚ) ^ ((4:ℤ) - k)) : ℚ) * (10:ℚ) ^ (k - (4:ℤ))

/-- Value of Python's `f"{x:.5g}"`: the input rounded to 5 significant
figures (the numeric value of the formatted string). -/
def g5 (x : ℚ) : ℚ :=
  if x = 0 then 0 else if 0 < x then g5pos x else -(g5pos (-x))

/-- Fuel-driven little-endian base-10 digit expansion, kernel-computable. -/
def digitsFuel : ℕ → ℕ → List ℕ
  | 0, _ => []
  | fuel+1, n => if n = 0 then [] else n % 10 :: digitsFuel fuel (n / 10)

/-- Little-endian decimal digits of `n` (empty for 0). -/
def leDigits (n : ℕ) : List ℕ := digitsFuel n n

/-! ### Sides and data model -/

/-- `PositionSide` from `hyperliquid/models.py`: direction of a position. -/
inductive PositionSide
  | long
  | short
deriving DecidableEq

/-- `OrderSide` from `hyperliquid/models.py`: direction of an order. -/
inductive OrderSide
  | buy
  | sell
deriving DecidableEq

/-- A target-side position as parsed by `hyperliquid/client.py`
(`get_user_state`): `size` is stored as an absolute value with the sign
carried by `side`. Fields not used by the embedded logic are elided. -/
structure Position where
  symbol : String
  size : ℚ
  side : PositionSide
  entry_price : ℚ
  current_price : ℚ
  leverage : ℚ
deriving DecidableEq

/-- One fill record of a stream frame (`fills[]`), as consumed by
`monitor._handle_fills` and `main.on_order_fill`. -/
structure FillData where
  oid : ℕ
  coin : String
  side : String
  sz : ℚ
  px : ℚ
  dir : String
  crossed : Bool
  startPosition : ℚ
deriving DecidableEq

/-- One position record of a stream frame (`positions[]`), as consumed by
`monitor._handle_positions`. -/
structure PosData where
  coin : String
  szi : ℚ
deriving DecidableEq

/-- One order record of a stream frame (`orders[]`), as consumed by
`monitor._handle_orders` and `main.on_new_order`.  Optional prices model
Python's absent-or-falsy dict entries. -/
structure OrderData where
  oid : ℕ
  coin : String
  side : String
  orderType : String
  sz : ℚ
  limitPx : Option ℚ
  triggerPx : Option ℚ
  isTrigger : Bool
  triggerCondition : String
  reduceOnly : Bool
deriving DecidableEq

/-- An entry of `monitor.last_orders` (`models.Order`); only the fields the
diff logic reads are kept.  `order_id` is a string, as in the source. -/
structure OpenOrder where
  order_id : String
  symbol : String
deriving DecidableEq

/-! ### Leverage (`main.py`) -/

/-- `MAX_LEVERAGE_LIMITS` from `main.get_max_leverage_for_asset`. -/
def MAX_LEVERAGE_LIMITS : List (String × ℤ) :=
  [("BTC", 50), ("ETH", 50), ("SOL", 20), ("MATIC", 20), ("ARB", 20),
   ("OP", 20), ("AVAX", 20), ("DOGE", 20), ("ATOM", 10), ("LTC", 10),
   ("BCH", 10), ("LINK", 10), ("UNI", 10), ("APE", 10), ("APT", 10),
   ("SUI", 10), ("TIA", 10), ("SEI", 10), ("WLD", 10), ("NEAR", 10),
   ("FET", 10), ("INJ", 10), ("STX", 10), ("PEPE", 10), ("BONK", 10),
   ("WIF", 10), ("HYPE", 10), ("ZEC", 10), ("TRUMP", 10), ("MELANIA", 10),
   ("PUMP", 10)]

/-- `main.get_max_leverage_for_asset`: dictionary lookup on the upper-cased
symbol with default 10. -/
def get_max_leverage_for_asset (symbol : String) : ℤ :=
  (MAX_LEVERAGE_LIMITS.lookup symbol.toUpper).getD 10

/-- `main.calculate_matching_leverage`: round the target's leverage to the
nearest integer, floor at 1, cap at the asset's maximum. -/
def calculate_matching_leverage (target_leverage : ℚ) (symbol : String) : ℤ :=
  let max_leverage := get_max_leverage_for_asset symbol
  let rounded_leverage := rhe target_leverage
  let floored_leverage := max 1 rounded_leverage
  min floored_leverage max_leverage

/-! ### Position sizer (`copy_engine/position_sizer.py`) -/

/-- Constructor arguments of `PositionSizer`. -/
structure SizerParams where
  mode : String
  fixed_size : ℚ
  portfolio_share : ℚ
  max_position_size : ℚ
  max_total_exposure : ℚ
deriving DecidableEq

/-- `PositionSizer._calculate_proportional_size`.  (The constructor field
`portfolio_ratio` of the source is named `portfolio_share` here.) -/
def _calculate_proportional_size (p : SizerParams) (target_position : Position)
    (target_wallet_balance your_wallet_balance : ℚ) : ℚ :=
  let target_notional := target_position.size * target_position.entry_price
  let wallet_share :=
    if target_wallet_balance > 0 then your_wallet_balance / target_wallet_balance
    else p.portfolio_share
  let your_notional := target_notional * wallet_share
  if target_position.entry_price > 0 then your_notional / target_position.entry_price else 0

/-- `PositionSizer._calculate_fixed_size`. -/
def _calculate_fixed_size (p : SizerParams) (target_position : Position) : ℚ :=
  if target_position.entry_price > 0 then p.fixed_size / target_position.entry_price else 0

/-- `PositionSizer.calculate_size`: mode dispatch, then the per-position cap
and the total-exposure check.  Python's `if size and size > ...` truthiness
test is `size ≠ 0 ∧ size > ...` here; `None` is `none`. -/
def calculate_size (p : SizerParams) (target_position : Position)
    (target_wallet_balance your_wallet_balance your_current_exposure : ℚ) : Option ℚ :=
  let size :=
    if p.mode = "proportional" then
      _calculate_proportional_size p target_position target_wallet_balance your_wallet_balance
    else
      _calculate_fixed_size p target_position
  let size := if size ≠ 0 ∧ size > p.max_position_size then p.max_position_size else size
  if size ≠ 0 ∧ your_current_exposure + size > p.max_total_exposure then none else some size

/-- `PositionSizer.should_copy_position`: entry-quality gate.  Returns
`false` for a non-positive target entry price before the percentage
deviation (whose denominator is the entry price) is ever computed. -/
def should_copy_position (target_entry_price current_market_price
    max_entry_deviation_pct : ℚ) : Bool :=
  if target_entry_price ≤ 0 then false
  else
    let deviation_pct :=
      |current_market_price - target_entry_price| / target_entry_price * 100
    if deviation_pct > max_entry_deviation_pct then false else true

/-! ### Wallet monitor (`copy_engine/monitor.py`) -/

/-- `WalletMonitor._handle_fills`: each fill whose upper-cased coin is not in
the blocked-assets list is delivered, one callback invocation per fill, in
order.  The returned list is the sequence of fills passed to
`on_order_fill`; no aggregation of any kind is performed. -/
def handle_fills (blocked_assets : List String) (fills : List FillData) : List FillData :=
  fills.filter (fun f => !(blocked_assets.contains f.coin.toUpper))

/-- Canonical position events emitted by `WalletMonitor._handle_positions`. -/
inductive PositionEvent
  | newPosition (d : PosData)
  | positionClosed (d : PosData)
  | positionUpdate (d : PosData)
deriving DecidableEq

/-- The raw record carried by a position event. -/
def PositionEvent.posData : PositionEvent → PosData
  | .newPosition d => d
  | .positionClosed d => d
  | .positionUpdate d => d

/-- `WalletMonitor._handle_positions`: skip blocked assets, then diff each
record against `last_positions`: unseen symbol with non-zero size is a new
position, seen symbol with zero size is a close, seen symbol whose absolute
size changed is an update. -/
def handle_positions (blocked_assets : List String) (last_positions : List Position)
    (ps : List PosData) : List PositionEvent :=
  ps.filterMap (fun pd =>
    let symbol := pd.coin.toUpper
    if blocked_assets.contains symbol then none
    else
      match last_positions.find? (fun p => p.symbol == symbol) with
      | none => if pd.szi ≠ 0 then some (.newPosition pd) else none
      | some existing =>
        if pd.szi = 0 then some (.positionClosed pd)
        else if |pd.szi| ≠ |existing.size| then some (.positionUpdate pd)
        else none)

/-- `WalletMonitor._handle_orders`: every record whose `oid` does not occur
in `last_orders` is delivered to `on_new_order`.  The source performs no
blocked-assets check on this path. -/
def handle_orders (last_orders : List OpenOrder) (os : List OrderData) : List OrderData :=
  os.filter (fun od => (last_orders.find? (fun o => o.order_id == toString od.oid)).isNone)

/-! ### `main.on_new_position` -/

/-- Ambient state read by `main.on_new_position`: the pause flag, the
configured limits, the fetched market price (`none` models a failed fetch),
and the sizing settings that the handler reads directly from `settings`. -/
structure NewPositionEnv where
  is_paused : Bool
  max_open_trades : Option ℕ
  current_trades : ℕ
  max_account_equity : Option ℚ
  current_equity : ℚ
  current_price : Option ℚ
  min_entry_quality_pct : ℚ
  mode : String
  portfolio_share : ℚ
  fixed_size : ℚ
deriving DecidableEq

/-- Payload of a `new position` callback: the fields of the stream record
that `on_new_position` reads. -/
structure NewPositionData where
  coin : String
  szi : ℚ
  entryPx : ℚ
  leverage : ℚ
deriving DecidableEq

/-- Outcome of `main.on_new_position`. -/
inductive NewPositionResult
  | skip (reason : String)
  | pauseAndSkip
  | submitMarket (symbol : String) (side : PositionSide) (size : ℚ) (leverage : ℤ)
deriving DecidableEq

/-- `main.on_new_position`: pause gate, max-open-trades gate, equity gate
(which pauses the bot), entry-quality gate, then sizing (`proportional`
multiplies the target size by the portfolio share; `fixed` divides the fixed
USD size by the entry price) and leverage matching, then submission of a
market order.  The source performs no minimum-notional check on this path. -/
def on_new_position (env : NewPositionEnv) (pd : NewPositionData) : NewPositionResult :=
  if env.is_paused then .skip "paused"
  else if (match env.max_open_trades with
           | some m => decide (m ≤ env.current_trades)
           | none => false) then .skip "max open trades"
  else if (match env.max_account_equity with
           | some m => decide (m ≤ env.current_equity)
           | none => false) then .pauseAndSkip
  else
    let symbol := pd.coin
    let size := pd.szi
    let side := if size > 0 then PositionSide.long else PositionSide.short
    let entry_price := pd.entryPx
    let current_price :=
      match env.current_price with
      | some cp => if cp ≠ 0 then cp else entry_price
      | none => entry_price
    if ¬ should_copy_position entry_price current_price env.min_entry_quality_pct then
      .skip "entry quality"
    else
      let your_size :=
        if env.mode = "proportional" then |size| * env.portfolio_share
        else if entry_price > 0 then env.fixed_size / entry_price else 0
      let your_leverage := calculate_matching_leverage pd.leverage symbol
      .submitMarket symbol side your_size your_leverage

/-! ### `main.on_new_order` -/

/-- Ambient state read by `main.on_new_order`: pause flag, copy toggles and
limits, the follower's current position size for the order's symbol (0 when
absent, as fetched from `executor.get_my_positions` or the simulated book),
the target's current absolute position size for the symbol from the monitor
snapshot (0 when absent), and the balances and sizer used on the limit-order
path. -/
structure NewOrderEnv where
  is_paused : Bool
  copy_existing_orders : Bool
  max_open_orders : Option ℕ
  current_orders : ℕ
  your_position_size : ℚ
  target_position_size : ℚ
  auto_adjust_size : Bool
  target_balance : ℚ
  your_actual_balance : ℚ
  simulated_balance : ℚ
  sizer : SizerParams
deriving DecidableEq

/-- Outcome of `main.on_new_order`: a skip, a trigger-order submission to
`executor.execute_trigger_order`, or a limit-order submission to
`executor.execute_limit_order` (arguments in source order). -/
inductive NewOrderResult
  | skip (reason : String)
  | trigger (symbol : String) (side : OrderSide) (size : ℚ) (trigger_price : ℚ)
      (is_take_profit : Bool) (is_market : Bool) (reduce_only : Bool)
  | limitOrder (symbol : String) (side : OrderSide) (size : ℚ) (price : ℚ)
      (reduce_only : Bool)
deriving DecidableEq

/-- `main.on_new_order`: gates, TP/SL classification from the pair
(order side, trigger condition), follower-position-based sizing for
triggers (`closeRatio = targetOrderSize / targetPositionSize`, full size
when the target has no position record), proportional sizing for plain
limit orders, and dispatch.  Trigger orders are submitted with
`is_market=True` and `reduce_only=True`; Python truthiness of the parsed
trigger price is a presence-and-nonzero test. -/
def on_new_order (env : NewOrderEnv) (od : OrderData) : NewOrderResult :=
  if env.is_paused then .skip "paused"
  else if ¬ env.copy_existing_orders then .skip "copy disabled"
  else if (match env.max_open_orders with
           | some m => decide (m ≤ env.current_orders)
           | none => false) then .skip "max open orders"
  else
    let symbol := od.coin
    let order_side := if od.side = "B" then OrderSide.buy else OrderSide.sell
    let target_size := |od.sz|
    let limit_price := match od.limitPx with | some p => p | none => 0
    let trigger_price : Option ℚ := od.triggerPx
    let has_trigger : Bool :=
      od.isTrigger || (match trigger_price with
                       | some t => decide (t ≠ 0)
                       | none => false)
    let is_take_profit : Bool :=
      has_trigger && (if od.triggerCondition = "gt" then order_side == OrderSide.sell
                      else if od.triggerCondition = "lt" then order_side == OrderSide.buy
                      else false)
    let is_stop_loss : Bool :=
      has_trigger && (if od.triggerCondition = "gt" then order_side == OrderSide.buy
                      else if od.triggerCondition = "lt" then order_side == OrderSide.sell
                      else false)
    if is_stop_loss || is_take_profit then
      if env.your_position_size ≤ 0 then .skip "no position to protect"
      else
        let our_size :=
          if env.target_position_size > 0 then
            env.your_position_size * (target_size / env.target_position_size)
          else env.your_position_size
        if our_size ≤ 0 then .skip "size is zero"
        else
          .trigger symbol order_side our_size
            (match trigger_price with | some t => t | none => 0)
            is_take_profit true true
    else
      let our_size :=
        if env.auto_adjust_size then
          calculate_size env.sizer
            { symbol := symbol, size := target_size,
              side := if order_side == OrderSide.buy then PositionSide.long else PositionSide.short,
              entry_price := limit_price, current_price := limit_price, leverage := 1 }
            env.target_balance
            (if env.your_actual_balance > 0 then env.your_actual_balance
             else env.simulated_balance)
            0
        else some target_size
      match our_size with
      | none => .skip "size is zero"
      | some s =>
        if s ≤ 0 then .skip "size is zero"
        else .limitOrder symbol order_side s limit_price od.reduceOnly

/-! ### `main.on_order_fill` -/

/-- Ambient state read by `main.on_order_fill`: pause flag, the follower's
current absolute position size for the fill's symbol (0 when absent), the
target's snapshot position for the symbol, balances, the limit-order toggle
and the target's snapshot leverage for the symbol (default 1). -/
structure FillEnv where
  is_paused : Bool
  your_position_size : ℚ
  target_position : Option Position
  target_balance : ℚ
  your_actual_balance : ℚ
  simulated_balance : ℚ
  use_limit_orders : Bool
  target_leverage : ℚ
  sizer : SizerParams
deriving DecidableEq

/-- Outcome of `main.on_order_fill`: a skip, or a submission (limit when
`use_limit_orders` is set, market otherwise) with `reduce_only` set exactly
for Close-direction fills. -/
inductive FillResult
  | skip (reason : String)
  | submit (symbol : String) (side : OrderSide) (size : ℚ) (price : ℚ)
      (leverage : ℤ) (reduce_only : Bool) (is_limit : Bool)
deriving DecidableEq

/-- Python's `needle in haystack` on strings: contiguous substring test. -/
def strContains (needle hay : String) : Bool :=
  decide (needle.data <:+: hay.data)

/-- `main.on_order_fill`: for Close-direction fills, size the close from the
follower's own position via `closeRatio = targetSize / |startPosition|`
(full close when the start position is zero) and cap at the follower's
position; for Open-direction fills, size proportionally via
`PositionSizer.calculate_size` (with a placeholder target position when the
snapshot has none).  Then the zero-size skip, the $10 minimum-notional skip,
leverage matching, side selection from the fill direction, and submission. -/
def on_order_fill (env : FillEnv) (fd : FillData) : FillResult :=
  if env.is_paused then .skip "paused"
  else
    let symbol := fd.coin
    let target_size := |fd.sz|
    let price := fd.px
    let direction := fd.dir
    let is_closing := strContains "Close" direction
    let position_side :=
      if strContains "Long" direction then PositionSide.long
      else if strContains "Short" direction then PositionSide.short
      else if fd.side = "B" then PositionSide.long else PositionSide.short
    if is_closing ∧ env.your_position_size ≤ 0 then .skip "no position to close"
    else
      let our_size : Option ℚ :=
        if is_closing then
          let target_position_before := fd.startPosition
          let s :=
            if |target_position_before| > 0 then
              env.your_position_size * (target_size / |target_position_before|)
            else env.your_position_size
          some (if s > env.your_position_size then env.your_position_size else s)
        else
          let target_position :=
            match env.target_position with
            | some tp => tp
            | none =>
              { symbol := symbol, size := target_size, side := position_side,
                entry_price := price, current_price := price, leverage := 1 }
          calculate_size env.sizer target_position env.target_balance
            (if env.your_actual_balance > 0 then env.your_actual_balance
             else env.simulated_balance)
            0
      match our_size with
      | none => .skip "size is zero"
      | some s =>
        if s ≤ 0 then .skip "size is zero"
        else if s * price < 10 then .skip "below min notional"
        else
          let our_leverage := calculate_matching_leverage env.target_leverage symbol
          let order_side :=
            if strContains "Open" direction then
              (if position_side = PositionSide.long then OrderSide.buy else OrderSide.sell)
            else
              (if position_side = PositionSide.long then OrderSide.sell else OrderSide.buy)
          .submit symbol order_side s price our_leverage is_closing env.use_limit_orders

/-! ### `main.on_position_close` and `executor.close_position` -/

/-- A reduce-only market close as `executor.close_position` would submit it. -/
structure CloseIntent where
  symbol : String
  size : ℚ
  side : OrderSide
  reduce_only : Bool
deriving DecidableEq

/-- Number of parameters of `TradeExecutor.close_position` that have no
default value: `symbol`, `size` and `side` (`self` excluded). -/
def close_position_required_args : ℕ := 3

/-- Number of positional arguments supplied at the call site in
`main.on_position_close`: the call is `executor.close_position(symbol)`. -/
def on_position_close_call_args : ℕ := 1

/-- CPython call binding for positional-only usage: the call binds exactly
when every required parameter receives an argument. -/
def pyCallBinds (required provided : ℕ) : Bool := decide (provided ≥ required)

/-- Outcome of `main.on_position_close` for a symbol the target closed. -/
inductive CloseOutcome
  | submitted (intent : CloseIntent)
  | typeError
deriving DecidableEq

/-- `main.on_position_close`: the handler forwards the close to
`executor.close_position(symbol)`.  That method requires `symbol`, `size`
and `side`; the call supplies only `symbol`, so in CPython the call raises
`TypeError` before any order is constructed, and the surrounding callback
guard in `monitor._handle_positions` swallows the exception.  The
(unreachable) bind branch is given a vacuous intent to keep the function
total. -/
def on_position_close (symbol : String) : CloseOutcome :=
  if pyCallBinds close_position_required_args on_position_close_call_args then
    .submitted { symbol := symbol, size := 0, side := OrderSide.sell, reduce_only := true }
  else .typeError

/-! ### Executor: size formatting (`executor._format_size`) -/

/-- The character for decimal digit `d`. -/
def digitChar (d : ℕ) : Char := Char.ofNat (48 + d)

/-- Little-endian decimal digits of `v` padded with zeros up to length `d`. -/
def leDigitsPadded (d v : ℕ) : List ℕ :=
  leDigits v ++ List.replicate (d - (leDigits v).length) 0

/-- Most-significant-first character rendering of a `d`-digit fraction. -/
def fracChars (d v : ℕ) : List Char := ((leDigitsPadded d v).map digitChar).reverse

/-- Little-endian digits of an integer part, rendering 0 as a single digit. -/
def intDigitsLE (n : ℕ) : List ℕ := if n = 0 then [0] else leDigits n

/-- Decimal character rendering of a natural number. -/
def natToChars (n : ℕ) : List Char := ((intDigitsLE n).map digitChar).reverse

/-- Python's fixed-point formatting `f"{q:.{d}f}"` as a character list:
round to `d` decimals (half to even), then render sign, integer part and,
when `d > 0`, a dot followed by exactly `d` fraction digits. -/
def fixedFormat (q : ℚ) (d : ℕ) : List Char :=
  let m : ℤ := rhe (q * (10:ℚ) ^ d)
  let sign : List Char := if m < 0 then ['-'] else []
  let n : ℕ := m.natAbs
  if d = 0 then sign ++ natToChars n
  else sign ++ natToChars (n / 10 ^ d) ++ '.' :: fracChars d (n % 10 ^ d)

/-- `executor._format_size`: `"0"` for a zero size, otherwise round to
`sz_decimals` places, format with exactly `sz_decimals` decimals, then strip
trailing `'0'` characters and then trailing `'.'` characters, exactly as
`f"{rounded:.{sz_decimals}f}".rstrip('0').rstrip('.')` does. -/
def _format_size (size : ℚ) (sz_decimals : ℕ) : String :=
  if size = 0 then "0"
  else
    let rounded := round_size size sz_decimals
    String.mk (List.rdropWhile (fun c => c == '.')
      (List.rdropWhile (fun c => c == '0') (fixedFormat rounded sz_decimals)))

/-- Numeric value of a most-significant-first decimal digit character list. -/
def parseNatChars (l : List Char) : ℕ :=
  l.foldl (fun a c => 10 * a + (c.toNat - 48)) 0

/-- Value of a decimal character string: integer part, and when a dot is
present, the fraction digits scaled by their length. -/
def parseChars (l : List Char) : ℚ :=
  let intPart := l.takeWhile (fun c => c != '.')
  let rest := l.dropWhile (fun c => c != '.')
  match rest with
  | [] => (parseNatChars intPart : ℚ)
  | _ :: frac => (parseNatChars intPart : ℚ) + (parseNatChars frac : ℚ) / (10:ℚ) ^ frac.length

/-- Modelled from the spec: the `parse` side of the size-formatter
round-trip property (`parse(format(s, d))`), i.e. Python's `float()` reading
of a plain decimal string.  The repository contains no named parser; this
definition follows the spec's reading of a formatted size. -/
def parse (s : String) : ℚ := parseChars s.data

/-! ### Executor: slippage prices and trigger orders -/

/-- `executor._calculate_slippage_price`: raise the price by the slippage
fraction for buys, lower it for sells; the source renders the result with
`f"{...:.5g}"`, so the value carried on the wire is the 5-significant-figure
rounding `g5` of the adjusted price. -/
def _calculate_slippage_price (price : ℚ) (is_buy : Bool) (slippage : ℚ) : ℚ :=
  let slippage_price := if is_buy then price * (1 + slippage) else price * (1 - slippage)
  g5 slippage_price

/-- The wire-format order produced by `executor.execute_trigger_order`:
fields `a`, `b`, `p`, `s`, `r` and the trigger block, plus the grouping.
Prices are carried as their numeric values (the source renders them as
strings). -/
structure TriggerAction where
  a : ℕ
  b : Bool
  p : ℚ
  s : String
  r : Bool
  isMarket : Bool
  triggerPx : ℚ
  tpsl : String
  grouping : String
deriving DecidableEq

/-- `executor.execute_trigger_order` (live path, after the asset-info
fetch): format the size, compute the attached limit price (5% slippage off
the trigger price in the aggressive direction when `is_market`, otherwise
the given limit price falling back to the trigger price), and build the
trigger action with `isMarket` hardcoded to `False`, `triggerPx` rendered to
5 significant figures and `tpsl` set from `is_take_profit`. -/
def execute_trigger_order (asset_index : ℕ) (sz_decimals : ℕ) (side : OrderSide)
    (size : ℚ) (trigger_price : ℚ) (is_take_profit : Bool) (is_market : Bool)
    (limit_price : Option ℚ) (reduce_only : Bool) : TriggerAction :=
  let formatted_size := _format_size size sz_decimals
  let is_buy := side == OrderSide.buy
  let order_limit_price :=
    if is_market then _calculate_slippage_price trigger_price is_buy (5/100)
    else
      match limit_price with
      | some lp => if lp ≠ 0 then lp else trigger_price
      | none => trigger_price
  let tpsl := if is_take_profit then "tp" else "sl"
  { a := asset_index, b := is_buy, p := order_limit_price, s := formatted_size,
    r := reduce_only, isMarket := false, triggerPx := g5 trigger_price,
    tpsl := tpsl, grouping := "normalTpsl" }

/-! ### Executor: action hashing (`executor._action_hash`, `_sign_action`) -/

/-- Python's `nonce.to_bytes(8, "big")`: the nonce as 8 big-endian bytes
(defined for `nonce < 2^64`; CPython raises `OverflowError` beyond). -/
def nonceBe8 (nonce : ℕ) : List ℕ :=
  [nonce / 256 ^ 7 % 256, nonce / 256 ^ 6 % 256, nonce / 256 ^ 5 % 256,
   nonce / 256 ^ 4 % 256, nonce / 256 ^ 3 % 256, nonce / 256 ^ 2 % 256,
   nonce / 256 % 256, nonce % 256]

/-- Big-endian value of a byte list. -/
def beVal (l : List ℕ) : ℕ := l.foldl (fun a b => 256 * a + b) 0

/-- The vault-address indicator appended by `executor._action_hash`: the
single byte `0x00` when there is no vault address, else the byte `0x01`
followed by the 20 address bytes (`bytes.fromhex` of the `0x`-stripped
address is modelled as the byte list itself). -/
def vault_indicator (vault_address : Option (List ℕ)) : List ℕ :=
  match vault_address with
  | none => [0]
  | some addr => 1 :: addr

/-- `executor._action_hash`: keccak over the msgpack serialisation of the
action followed by the 8-byte big-endian nonce and the vault indicator.
`keccak` and the msgpack bytes of the action are parameters of the
embedding (the cryptographic hash and the serialiser are external
libraries). -/
def action_hash (keccak : List ℕ → List ℕ) (packed_action : List ℕ)
    (vault_address : Option (List ℕ)) (nonce : ℕ) : List ℕ :=
  keccak (packed_action ++ nonceBe8 nonce ++ vault_indicator vault_address)

/-- The phantom agent built by `executor._sign_action`: `source` is `"a"`
(mainnet) and `connectionId` is the action hash. -/
structure PhantomAgent where
  source : String
  connectionId : List ℕ
deriving DecidableEq

/-- `executor._sign_action`, hash portion: the signed `connectionId` is
exactly `_action_hash(action, vault_address, nonce)`. -/
def sign_action_agent (keccak : List ℕ → List ℕ) (packed_action : List ℕ)
    (vault_address : Option (List ℕ)) (nonce : ℕ) : PhantomAgent :=
  { source := "a", connectionId := action_hash keccak packed_action vault_address nonce }

end CopyTrader

namespace CopyTrader

/-! ### Helper lemmas -/

/-- Rounding an integer-valued rational is the identity. -/
lemma rhe_intCast (k : ℤ) : rhe (k : ℚ) = k := by
  simp [rhe]

/-- `rhe` of a non-negative rational is non-negative. -/
lemma rhe_nonneg (x : ℚ) (h : 0 ≤ x) : 0 ≤ rhe x := by
  have hf : (0:ℤ) ≤ ⌊x⌋ := Int.floor_nonneg.mpr h
  unfold rhe
  simp only []
  split
  · exact hf
  · split
    · omega
    · split <;> omega

/-- Every value of an association list bounded below bounds the defaulted lookup. -/
lemma lookup_ge_ten (s : String) (l : List (String × ℤ))
    (h : ∀ p ∈ l, 10 ≤ p.2) : 10 ≤ (l.lookup s).getD 10 := by
  induction l with
  | nil => simp
  | cons hd tl ih =>
    by_cases hs : s == hd.1
    · simpa [List.lookup, hs] using h hd (by simp)
    · simpa [List.lookup, hs] using ih (fun p hp => h p (by simp [hp]))

/-- The hardcoded per-asset leverage cap is at least 10 for every symbol. -/
lemma get_max_leverage_ge_ten (sym : String) : 10 ≤ get_max_leverage_for_asset sym := by
  unfold get_max_leverage_for_asset
  apply lookup_ge_ten
  intro p hp
  fin_cases hp <;> norm_num

/-- `calculate_matching_leverage` is the clamp of the rounded target leverage. -/
lemma cml_eq (t : ℚ) (sym : String) :
    calculate_matching_leverage t sym
      = min (max (rhe t) 1) (get_max_leverage_for_asset sym) := by
  unfold calculate_matching_leverage
  rw [max_comm]

/-- Bounds of the clamped leverage. -/
lemma cml_bounds (t : ℚ) (sym : String) :
    1 ≤ calculate_matching_leverage t sym
    ∧ calculate_matching_leverage t sym ≤ get_max_leverage_for_asset sym := by
  have hm := get_max_leverage_ge_ten sym
  rw [cml_eq]
  constructor
  · exact le_min (le_max_right _ _) (by omega)
  · exact min_le_right _ _

/-- Characterisation of a market submission produced by `on_new_position`. -/
lemma on_new_position_submit (env : NewPositionEnv) (pd : NewPositionData)
    (sym : String) (side : PositionSide) (qsz : ℚ) (lev : ℤ)
    (h : on_new_position env pd = NewPositionResult.submitMarket sym side qsz lev) :
    sym = pd.coin ∧ lev = calculate_matching_leverage pd.leverage pd.coin
    ∧ qsz = (if env.mode = "proportional" then |pd.szi| * env.portfolio_share
             else if pd.entryPx > 0 then env.fixed_size / pd.entryPx else 0) := by
  unfold on_new_position at h
  repeat' split at h
  all_goals try exact NewPositionResult.noConfusion h
  all_goals
    rw [ite_eq_iff] at h
    rcases h with ⟨hq, h⟩ | ⟨hq, h⟩
    · exact NewPositionResult.noConfusion h
    · simp only [NewPositionResult.submitMarket.injEq] at h
      obtain ⟨h1, h2, h3, h4⟩ := h
      subst h1
      refine ⟨rfl, h4.symm, ?_⟩
      simp_all

/-- BEq reductions for `OrderSide`. -/
lemma beq_buy_sell : (OrderSide.buy == OrderSide.sell) = false := rfl

lemma beq_sell_buy : (OrderSide.sell == OrderSide.buy) = false := rfl

lemma beq_buy_buy : (OrderSide.buy == OrderSide.buy) = true := rfl

lemma beq_sell_sell : (OrderSide.sell == OrderSide.sell) = true := rfl

set_option maxHeartbeats 1000000 in
/-- Characterisation of a trigger-order submission produced by `on_new_order`:
it is reduce-only and marked market, happens only with a positive follower
position, sizes from the follower position scaled by the target's close
ratio (full size when the target has no position record), carries the raw
trigger price, and classifies TP/SL from the pair (side, condition). -/
lemma on_new_order_trigger (env : NewOrderEnv) (od : OrderData)
    (sym : String) (side : OrderSide) (sz tpx : ℚ) (istp mk ro : Bool)
    (h : on_new_order env od = NewOrderResult.trigger sym side sz tpx istp mk ro) :
    ro = true ∧ mk = true ∧ 0 < env.your_position_size
    ∧ sym = od.coin
    ∧ side = (if od.side = "B" then OrderSide.buy else OrderSide.sell)
    ∧ sz = (if env.target_position_size > 0 then
              env.your_position_size * (|od.sz| / env.target_position_size)
            else env.your_position_size)
    ∧ tpx = (match od.triggerPx with | some t => t | none => 0)
    ∧ ((od.triggerCondition = "gt" ∧ istp = (side == OrderSide.sell))
       ∨ (od.triggerCondition = "lt" ∧ istp = (side == OrderSide.buy))) := by
  simp only [on_new_order] at h
  repeat' split at h
  all_goals try exact NewOrderResult.noConfusion h
  all_goals
    simp only [NewOrderResult.trigger.injEq] at h
    obtain ⟨hsym, hside, hsz, htpx, htp, hmk, hro⟩ := h
    subst hsym hside hsz htpx htp hmk hro
    try simp_all [beq_buy_sell, beq_sell_buy, beq_buy_buy, beq_sell_sell]
  all_goals rw [if_neg (not_lt.mpr (by assumption))]

/-- The `min`-style cap used in the close-sizing path is bounded by its cap. -/
lemma cap_le (a b : ℚ) : (if a < b then a else b) ≤ a := by
  split
  · exact le_rfl
  · exact le_of_not_lt (by assumption)

set_option maxHeartbeats 2000000 in
/-- Characterisation of a submission produced by `on_order_fill`: symbol and
price come from the fill, reduce-only exactly for Close directions, limit
flag from the toggle, leverage from the matcher, the zero-size and $10
minimum-notional gates were passed, and every reduce-only submission is
capped at the follower's cached position size. -/
lemma on_order_fill_submit (env : FillEnv) (fd : FillData)
    (sym : String) (side : OrderSide) (sz px : ℚ) (lev : ℤ) (ro lim : Bool)
    (h : on_order_fill env fd = FillResult.submit sym side sz px lev ro lim) :
    sym = fd.coin ∧ px = fd.px ∧ ro = strContains "Close" fd.dir
    ∧ lim = env.use_limit_orders
    ∧ lev = calculate_matching_leverage env.target_leverage fd.coin
    ∧ ¬ sz ≤ 0 ∧ ¬ sz * fd.px < 10
    ∧ (ro = true → sz ≤ env.your_position_size) := by
  simp only [on_order_fill] at h
  repeat' split at h
  all_goals try exact FillResult.noConfusion h
  all_goals
    simp only [FillResult.submit.injEq] at h
    obtain ⟨hsym, hside, hsz, hpx, hlev, hro, hlim⟩ := h
    subst hsym hside hsz hpx hlev hro hlim
    try simp_all
  all_goals intro hc
  all_goals simp_all
  all_goals subst_vars
  all_goals exact cap_le _ _

end CopyTrader

namespace CopyTrader

/-! ### Decimal-digit machinery for the size formatter -/

/-- The fuel-driven digit expansion agrees with `Nat.digits 10`. -/
lemma digitsFuel_eq (fuel : ℕ) : ∀ n : ℕ, n ≤ fuel → digitsFuel fuel n = Nat.digits 10 n := by
  induction fuel with
  | zero =>
    intro n hn
    interval_cases n
    simp [digitsFuel]
  | succ f ih =>
    intro n hn
    rw [digitsFuel]
    by_cases hz : n = 0
    · simp [hz]
    · rw [if_neg hz, ih (n / 10) (by omega),
        Nat.digits_def' (by norm_num : (1:ℕ) < 10) (Nat.pos_of_ne_zero hz)]

lemma leDigits_eq (n : ℕ) : leDigits n = Nat.digits 10 n := digitsFuel_eq n n le_rfl

lemma charVal_digitChar (d : ℕ) (h : d < 10) : (digitChar d).toNat - 48 = d := by
  interval_cases d <;> decide

lemma digitChar_beq_zero (d : ℕ) (h : d < 10) : (digitChar d == '0') = (d == 0) := by
  interval_cases d <;> decide

lemma digitChar_beq_dot (d : ℕ) (h : d < 10) : (digitChar d == '.') = false := by
  interval_cases d <;> decide

lemma digitChar_bne_dot (d : ℕ) (h : d < 10) : (digitChar d != '.') = true := by
  interval_cases d <;> decide

/-- Folding most-significant-first digits is `ofDigits` of the reversal. -/
lemma foldl_base (M : List ℕ) : ∀ acc : ℕ,
    M.foldl (fun a x => 10 * a + x) acc = acc * 10 ^ M.length + Nat.ofDigits 10 M.reverse := by
  induction M with
  | nil => intro acc; simp [Nat.ofDigits]
  | cons x M ih =>
    intro acc
    rw [List.foldl_cons, ih, List.reverse_cons, Nat.ofDigits_append,
      List.length_reverse, List.length_cons, Nat.ofDigits_singleton]
    ring

lemma foldl_digit_eq (M : List ℕ) : ∀ acc : ℕ, (∀ x ∈ M, x < 10) →
    M.foldl (fun a c => 10 * a + ((digitChar c).toNat - 48)) acc
      = M.foldl (fun a x => 10 * a + x) acc := by
  induction M with
  | nil => intro acc _; rfl
  | cons x M ih =>
    intro acc hM
    rw [List.foldl_cons, List.foldl_cons, charVal_digitChar x (hM x (by simp))]
    exact ih _ (fun y hy => hM y (by simp [hy]))

lemma parseNatChars_map (M : List ℕ) (hM : ∀ x ∈ M, x < 10) :
    parseNatChars (M.map digitChar) = Nat.ofDigits 10 M.reverse := by
  unfold parseNatChars
  rw [List.foldl_map, foldl_digit_eq M 0 hM, foldl_base]
  simp

lemma ofDigits_all_zero (L : List ℕ) (h : ∀ x ∈ L, x = 0) : Nat.ofDigits 10 L = 0 := by
  induction L with
  | nil => rfl
  | cons x L ih =>
    rw [Nat.ofDigits_cons, h x (by simp), ih (fun y hy => h y (by simp [hy]))]

lemma dropWhile_append_of_all {α : Type} (p : α → Bool) (a b : List α)
    (ha : ∀ x ∈ a, p x = true) : List.dropWhile p (a ++ b) = List.dropWhile p b := by
  induction a with
  | nil => rfl
  | cons x a ih =>
    rw [List.cons_append, List.dropWhile_cons, if_pos (ha x (by simp))]
    exact ih (fun y hy => ha y (by simp [hy]))

lemma dropWhile_append_of_ne {α : Type} (p : α → Bool) (a b : List α)
    (ha : List.dropWhile p a ≠ []) : List.dropWhile p (a ++ b) = List.dropWhile p a ++ b := by
  induction a with
  | nil => simp at ha
  | cons x a ih =>
    by_cases hx : p x = true
    · have ha2 : List.dropWhile p a ≠ [] := by
        rwa [List.dropWhile_cons, if_pos hx] at ha
      rw [List.cons_append, List.dropWhile_cons, if_pos hx,
        List.dropWhile_cons, if_pos hx, ih ha2]
    · rw [List.cons_append, List.dropWhile_cons, if_neg hx,
        List.dropWhile_cons, if_neg hx, List.cons_append]

lemma takeWhile_append_of_all {α : Type} (p : α → Bool) (a b : List α)
    (ha : ∀ x ∈ a, p x = true) : List.takeWhile p (a ++ b) = a ++ List.takeWhile p b := by
  induction a with
  | nil => rfl
  | cons x a ih =>
    rw [List.cons_append, List.takeWhile_cons, if_pos (ha x (by simp))]
    rw [ih (fun y hy => ha y (by simp [hy])), List.cons_append]

lemma dropWhile_map_digitChar (M : List ℕ) (hM : ∀ x ∈ M, x < 10) :
    List.dropWhile (fun c => c == '0') (M.map digitChar)
      = (M.dropWhile (fun x => x == 0)).map digitChar := by
  induction M with
  | nil => rfl
  | cons x M ih =>
    rw [List.map_cons, List.dropWhile_cons, List.dropWhile_cons,
      digitChar_beq_zero x (hM x (by simp))]
    by_cases hx : (x == 0) = true
    · rw [if_pos hx, if_pos hx]
      exact ih (fun y hy => hM y (by simp [hy]))
    · rw [if_neg hx, if_neg hx, List.map_cons]

lemma digits_len_le (v d : ℕ) (hv : v < 10 ^ d) : (Nat.digits 10 v).length ≤ d := by
  by_cases hz : v = 0
  · simp [hz]
  · by_contra hlen
    have h1 : 10 ^ (d + 1) ≤ 10 ^ (Nat.digits 10 v).length :=
      Nat.pow_le_pow_right (by norm_num) (by omega)
    have h2 := Nat.base_pow_length_digits_le 10 v (by norm_num) hz
    have h3 : 10 ^ (d + 1) ≤ 10 * v := le_trans h1 h2
    rw [pow_succ] at h3
    omega

lemma leDigitsPadded_length (d v : ℕ) (hv : v < 10 ^ d) :
    (leDigitsPadded d v).length = d := by
  have := digits_len_le v d hv
  rw [leDigitsPadded, List.length_append, List.length_replicate, leDigits_eq]
  omega

lemma ofDigits_leDigitsPadded (d v : ℕ) :
    Nat.ofDigits 10 (leDigitsPadded d v) = v := by
  rw [leDigitsPadded, Nat.ofDigits_append, leDigits_eq, Nat.ofDigits_digits,
    ofDigits_all_zero _ (fun x hx => (List.eq_of_mem_replicate hx))]
  simp

lemma leDigitsPadded_lt (d v : ℕ) : ∀ x ∈ leDigitsPadded d v, x < 10 := by
  intro x hx
  rw [leDigitsPadded, List.mem_append] at hx
  rcases hx with hx | hx
  · exact Nat.digits_lt_base (by norm_num) (by rwa [leDigits_eq] at hx)
  · rw [List.eq_of_mem_replicate hx]; norm_num

lemma intDigitsLE_lt (n : ℕ) : ∀ x ∈ intDigitsLE n, x < 10 := by
  intro x hx
  rw [intDigitsLE] at hx
  split at hx
  · simp at hx; omega
  · exact Nat.digits_lt_base (by norm_num) (by rwa [leDigits_eq] at hx)

lemma intDigitsLE_ne_nil (n : ℕ) : intDigitsLE n ≠ [] := by
  rw [intDigitsLE]
  split
  · simp
  · rw [leDigits_eq]
    exact Nat.digits_ne_nil_iff_ne_zero.mpr (by assumption)

lemma ofDigits_intDigitsLE (n : ℕ) : Nat.ofDigits 10 (intDigitsLE n) = n := by
  rw [intDigitsLE]
  split
  · simp [Nat.ofDigits]; omega
  · rw [leDigits_eq, Nat.ofDigits_digits]

lemma parseNatChars_natToChars (n : ℕ) : parseNatChars (natToChars n) = n := by
  rw [natToChars, ← List.map_reverse,
    parseNatChars_map _ (fun x hx => intDigitsLE_lt n x (List.mem_reverse.mp hx))]
  rw [List.reverse_reverse, ofDigits_intDigitsLE]

lemma takeWhile_all {α : Type} (p : α → Bool) (l : List α)
    (h : ∀ x ∈ l, p x = true) : List.takeWhile p l = l := by
  induction l with
  | nil => rfl
  | cons x l ih =>
    rw [List.takeWhile_cons, if_pos (h x (by simp)), ih (fun y hy => h y (by simp [hy]))]

lemma dropWhile_all_neg {α : Type} (p : α → Bool) (l : List α)
    (h : ∀ x ∈ l, p x = false) : List.dropWhile p l = l := by
  induction l with
  | nil => rfl
  | cons x l ih =>
    rw [List.dropWhile_cons, if_neg (by simp [h x (by simp)])]

lemma natToChars_shape : ∀ n, ∀ c ∈ natToChars n, ∃ x, x < 10 ∧ c = digitChar x := by
  intro n c hc
  rw [natToChars, List.mem_reverse, List.mem_map] at hc
  obtain ⟨x, hx, rfl⟩ := hc
  exact ⟨x, intDigitsLE_lt n x hx, rfl⟩

lemma natToChars_bne_dot (n : ℕ) : ∀ c ∈ natToChars n, (c != '.') = true := by
  intro c hc
  obtain ⟨x, hx, rfl⟩ := natToChars_shape n c hc
  exact digitChar_bne_dot x hx

lemma natToChars_beq_dot (n : ℕ) : ∀ c ∈ natToChars n, (c == '.') = false := by
  intro c hc
  obtain ⟨x, hx, rfl⟩ := natToChars_shape n c hc
  exact digitChar_beq_dot x hx

end CopyTrader

namespace CopyTrader

/-- Parsing the stripped fixed-point rendering recovers integer and
fraction parts exactly. -/
lemma parseChars_strip_core (q' v d : ℕ) (hv : v < 10 ^ d) :
    parseChars (List.rdropWhile (fun c => c == '.') (List.rdropWhile (fun c => c == '0')
      (natToChars q' ++ '.' :: fracChars d v)))
    = (q' : ℚ) + (v : ℚ) / (10:ℚ) ^ d := by
  set ic := natToChars q' with hic
  set P := leDigitsPadded d v with hP
  have hPlt : ∀ x ∈ P, x < 10 := leDigitsPadded_lt d v
  have hfc : fracChars d v = (P.map digitChar).reverse := rfl
  have hrev : (ic ++ '.' :: fracChars d v).reverse
      = P.map digitChar ++ '.' :: ic.reverse := by
    rw [hfc, List.reverse_append, List.reverse_cons, List.reverse_reverse,
      List.append_assoc, List.singleton_append]
  by_cases hP' : P.dropWhile (fun x => x == 0) = []
  · -- all fraction digits are zero: the dot is stripped as well
    have hallzero : ∀ x ∈ P, (x == 0) = true := List.dropWhile_eq_nil_iff.mp hP'
    have hv0 : v = 0 := by
      have := ofDigits_all_zero P (fun x hx => by simpa using hallzero x hx)
      rw [hP, ofDigits_leDigitsPadded] at this
      exact this
    have hd0 : List.dropWhile (fun c => c == '0')
        (P.map digitChar ++ '.' :: ic.reverse) = '.' :: ic.reverse := by
      rw [dropWhile_append_of_all _ _ _ (by
        intro c hc
        rw [List.mem_map] at hc
        obtain ⟨x, hx, rfl⟩ := hc
        rw [digitChar_beq_zero x (hPlt x hx)]
        exact hallzero x hx)]
      rw [List.dropWhile_cons, if_neg (by decide)]
    have hs0 : List.rdropWhile (fun c => c == '0') (ic ++ '.' :: fracChars d v)
        = ic ++ ['.'] := by
      rw [List.rdropWhile, hrev, hd0, List.reverse_cons, List.reverse_reverse]
    have hs1 : List.rdropWhile (fun c => c == '.') (ic ++ ['.']) = ic := by
      rw [List.rdropWhile, List.reverse_append, List.reverse_singleton,
        List.singleton_append, List.dropWhile_cons, if_pos (by decide),
        dropWhile_all_neg _ _ (fun c hc => natToChars_beq_dot q' c (List.mem_reverse.mp hc)),
        List.reverse_reverse]
    rw [hs0, hs1, parseChars, takeWhile_all _ _ (natToChars_bne_dot q'),
      List.dropWhile_eq_nil_iff.mpr (natToChars_bne_dot q')]
    rw [parseNatChars_natToChars, hv0]
    norm_num
  · -- some fraction digit is non-zero: the dot survives
    set P' := P.dropWhile (fun x => x == 0) with hPdefn
    have hP'lt : ∀ x ∈ P', x < 10 := fun x hx =>
      hPlt x ((List.dropWhile_sublist _).subset hx)
    have hmapne : List.dropWhile (fun c => c == '0') (P.map digitChar) ≠ [] := by
      rw [dropWhile_map_digitChar P hPlt, ← hPdefn]
      intro hh
      exact hP' (List.map_eq_nil_iff.mp hh)
    have hd0 : List.dropWhile (fun c => c == '0')
        (P.map digitChar ++ '.' :: ic.reverse)
        = P'.map digitChar ++ '.' :: ic.reverse := by
      rw [dropWhile_append_of_ne _ _ _ hmapne, dropWhile_map_digitChar P hPlt]
    have hs0 : List.rdropWhile (fun c => c == '0') (ic ++ '.' :: fracChars d v)
        = ic ++ '.' :: (P'.map digitChar).reverse := by
      rw [List.rdropWhile, hrev, hd0, List.reverse_append, List.reverse_cons,
        List.reverse_reverse, List.append_assoc, List.singleton_append]
    have hs1 : List.rdropWhile (fun c => c == '.')
        (ic ++ '.' :: (P'.map digitChar).reverse)
        = ic ++ '.' :: (P'.map digitChar).reverse := by
      rw [List.rdropWhile, List.reverse_append, List.reverse_cons,
        List.reverse_reverse, List.append_assoc, List.singleton_append]
      obtain ⟨c, cs, hcons⟩ : ∃ c cs, P' = c :: cs := by
        cases hcc : P' with
        | nil => exact absurd hcc hP'
        | cons c cs => exact ⟨c, cs, rfl⟩
      rw [hcons, List.map_cons, List.cons_append, List.dropWhile_cons,
        if_neg (by simp [digitChar_beq_dot c (hP'lt c (by rw [hcons]; simp))])]
      rw [← List.cons_append, ← List.map_cons, ← hcons, List.reverse_append,
        List.reverse_cons, List.reverse_reverse, List.append_assoc, List.singleton_append]
    rw [hs0, hs1, parseChars]
    rw [takeWhile_append_of_all _ _ _ (natToChars_bne_dot q'),
      dropWhile_append_of_all _ _ _ (natToChars_bne_dot q')]
    rw [List.takeWhile_cons, if_neg (by decide), List.dropWhile_cons, if_neg (by decide)]
    rw [List.append_nil, parseNatChars_natToChars]
    dsimp only
    have hval : parseNatChars (P'.map digitChar).reverse = Nat.ofDigits 10 P' := by
      rw [← List.map_reverse, parseNatChars_map _ (fun x hx => hP'lt x (List.mem_reverse.mp hx)),
        List.reverse_reverse]
    have hlen : (P'.map digitChar).reverse.length = P'.length := by simp
    rw [hval, hlen]
    -- arithmetic: v = 10^k * ofDigits P' with k + P'.length = d
    have hsplit : P.takeWhile (fun x => x == 0) ++ P' = P := by
      rw [hPdefn]
      exact List.takeWhile_append_dropWhile _ _
    have hTzero : Nat.ofDigits 10 (P.takeWhile (fun x => x == 0)) = 0 :=
      ofDigits_all_zero _ (fun x hx => by simpa using List.mem_takeWhile_imp hx)
    have hvP : v = Nat.ofDigits 10 P := by rw [hP, ofDigits_leDigitsPadded]
    have hvsplit : v = 10 ^ (P.takeWhile (fun x => x == 0)).length * Nat.ofDigits 10 P' := by
      rw [hvP, ← hsplit, Nat.ofDigits_append, hTzero, hsplit]
      omega
    have hdlen : (P.takeWhile (fun x => x == 0)).length + P'.length = d := by
      have h1 : P.length = d := by rw [hP]; exact leDigitsPadded_length d v hv
      calc (P.takeWhile (fun x => x == 0)).length + P'.length
          = (P.takeWhile (fun x => x == 0) ++ P').length := (List.length_append _ _).symm
        _ = P.length := by rw [hsplit]
        _ = d := h1
    have h10 : (10:ℚ) ^ d = 10 ^ (P.takeWhile (fun x => x == 0)).length * 10 ^ P'.length := by
      rw [← pow_add, hdlen]
    rw [hvsplit, h10]
    push_cast
    have hpow : ((10:ℚ)) ^ (P.takeWhile (fun x => x == 0)).length ≠ 0 := by positivity
    field_simp
    ring

end CopyTrader

namespace CopyTrader

/-- Claim C7 (amended): the size-formatter round-trip
`parse(format(s, d)) = round(s, d)` holds for every size `0 ≤ s ≤ 10^6`
and every decimal count `1 ≤ d ≤ 8`.  (For `d = 0` the claim fails: see
the counterexample, where stripping trailing zeros corrupts the integer
part.) -/
theorem C7_roundtrip_amended (s : ℚ) (d : ℕ) (h0 : 0 ≤ s) (h1 : s ≤ 10 ^ 6)
    (hd1 : 1 ≤ d) (hd8 : d ≤ 8) :
    parse (_format_size s d) = round_size s d := by
  by_cases hs : s = 0
  · subst hs
    have hp : parse (_format_size 0 d) = 0 := by
      rw [_format_size, if_pos rfl]
      rfl
    rw [hp, round_size]
    norm_num [rhe]
  · have hn : (0:ℤ) ≤ rhe (s * (10:ℚ) ^ d) :=
      rhe_nonneg _ (mul_nonneg h0 (by positivity))
    obtain ⟨nn, hnn⟩ : ∃ nn : ℕ, rhe (s * (10:ℚ) ^ d) = (nn:ℤ) :=
      ⟨(rhe (s * (10:ℚ) ^ d)).toNat, (Int.toNat_of_nonneg hn).symm⟩
    have hr : round_size s d = (nn:ℚ) / (10:ℚ) ^ d := by
      rw [round_size, hnn]
      push_cast
      ring
    have hm : rhe (round_size s d * (10:ℚ) ^ d) = (nn:ℤ) := by
      have h10 : ((10:ℚ)) ^ d ≠ 0 := by positivity
      have he : round_size s d * (10:ℚ) ^ d = ((nn:ℤ):ℚ) := by
        rw [hr]
        push_cast
        field_simp
      rw [he, rhe_intCast]
    have hff : fixedFormat (round_size s d) d
        = natToChars (nn / 10 ^ d) ++ '.' :: fracChars d (nn % 10 ^ d) := by
      rw [fixedFormat]
      simp only [hm]
      rw [if_neg (by omega), if_neg (by omega)]
      simp [Int.natAbs_ofNat]
    have hfmt : _format_size s d = String.mk (List.rdropWhile (fun c => c == '.')
        (List.rdropWhile (fun c => c == '0')
          (natToChars (nn / 10 ^ d) ++ '.' :: fracChars d (nn % 10 ^ d)))) := by
      unfold _format_size
      rw [if_neg hs]
      dsimp only
      rw [hff]
    rw [hfmt, parse]
    have hcore := parseChars_strip_core (nn / 10 ^ d) (nn % 10 ^ d) d
      (Nat.mod_lt _ (by positivity))
    rw [show (String.mk (List.rdropWhile (fun c => c == '.')
        (List.rdropWhile (fun c => c == '0')
          (natToChars (nn / 10 ^ d) ++ '.' :: fracChars d (nn % 10 ^ d))))).data
      = List.rdropWhile (fun c => c == '.') (List.rdropWhile (fun c => c == '0')
          (natToChars (nn / 10 ^ d) ++ '.' :: fracChars d (nn % 10 ^ d))) from rfl]
    have hdm : 10 ^ d * (nn / 10 ^ d) + nn % 10 ^ d = nn := Nat.div_add_mod nn (10 ^ d)
    have h10 : ((10:ℚ)) ^ d ≠ 0 := by positivity
    have hdm2 : (nn / 10 ^ d) * 10 ^ d + nn % 10 ^ d = nn := by
      rw [Nat.mul_comm]
      exact hdm
    rw [hcore, hr, eq_div_iff h10, add_mul, div_mul_cancel₀ _ h10]
    exact_mod_cast hdm2

end CopyTrader

namespace CopyTrader

set_option maxRecDepth 4000 in
/-- Claim C7 counterexample: at size `s = 10` (within `0 ≤ s ≤ 10^6`) and
decimal count `d = 0` (within `0 ≤ d ≤ 8`), the formatter renders `"10"`
and then strips the trailing zero of the integer part, so parsing returns
1 while `round(10, 0) = 10`: the round-trip claim is false as stated. -/
theorem C7_counterexample :
    parse (_format_size 10 0) ≠ round_size 10 0
    ∧ parse (_format_size 10 0) = 1 ∧ round_size 10 0 = 10
    ∧ (0:ℚ) ≤ 10 ∧ (10:ℚ) ≤ 10 ^ 6 := by
  refine ⟨?_, ?_, ?_, by norm_num, by norm_num⟩
  · with_unfolding_all decide
  · with_unfolding_all decide
  · with_unfolding_all decide

set_option maxRecDepth 3000 in
/-- Claim C7 witness: the amended round-trip theorem applied at the concrete
size 10 with 2 decimals. -/
theorem C7_witness :
    parse (_format_size 10 2) = round_size 10 2 ∧ round_size 10 2 = 10 :=
  ⟨C7_roundtrip_amended 10 2 (by norm_num) (by norm_num) (by norm_num) (by norm_num),
   by with_unfolding_all decide⟩

/-- Claim C10: for every non-positive target entry price the entry-quality
gate `should_copy_position` returns `false`, before the percentage-deviation
division (whose denominator is the entry price) is evaluated, so that
division only ever runs with a strictly positive denominator. -/
theorem C10_entry_gate (target_entry_price current_market_price max_dev : ℚ)
    (h : target_entry_price ≤ 0) :
    should_copy_position target_entry_price current_market_price max_dev = false := by
  unfold should_copy_position
  rw [if_pos h]

/-- Claim C10 witness: the gate rejects a zero entry price. -/
theorem C10_witness : should_copy_position 0 50 5 = false :=
  C10_entry_gate 0 50 5 le_rfl

/-- Claim C3: `main.on_position_close` calls
`executor.close_position(symbol)` with one positional argument while the
method requires `symbol`, `size` and `side`; CPython's call binding fails,
so every `PositionClosed` event raises `TypeError` and no reduce-only close
of any size is ever submitted on this path — the sizing rule
`min(followerSize, followerSize × closeRatio)` and the
`"nothing to close"` skip are unreachable. -/
theorem C3_position_close_type_error (symbol : String) :
    on_position_close symbol = CloseOutcome.typeError := rfl

/-- Claim C9: a single frame containing two partial fills that share
`orderId = 7` is delivered by `monitor._handle_fills` as two separate
events, not as one aggregated event of summed size and volume-weighted
price — contradicting the aggregation documented in `main.on_order_fill`'s
docstring.  The delivered list has length 2 and equals the raw frame. -/
theorem C9_no_aggregation :
    handle_fills []
      [{ oid := 7, coin := "BTC", side := "A", sz := 1/10, px := 100,
         dir := "Close Long", crossed := false, startPosition := 1/2 },
       { oid := 7, coin := "BTC", side := "A", sz := 1/5, px := 101,
         dir := "Close Long", crossed := false, startPosition := 1/2 }]
    = [{ oid := 7, coin := "BTC", side := "A", sz := 1/10, px := 100,
         dir := "Close Long", crossed := false, startPosition := 1/2 },
       { oid := 7, coin := "BTC", side := "A", sz := 1/5, px := 101,
         dir := "Close Long", crossed := false, startPosition := 1/2 }]
    ∧ (handle_fills []
        [{ oid := 7, coin := "BTC", side := "A", sz := 1/10, px := 100,
           dir := "Close Long", crossed := false, startPosition := 1/2 },
         { oid := 7, coin := "BTC", side := "A", sz := 1/5, px := 101,
           dir := "Close Long", crossed := false, startPosition := 1/2 }]).length = 2 := by
  with_unfolding_all decide

end CopyTrader

namespace CopyTrader

/-- Claim C1 counterexample: a reduce-only trigger submission whose size
exceeds the follower's cached position.  The target's TP order (size 2) is
twice its recorded position (size 1), so `closeRatio = 2` and the follower
trigger is sized `1/100 × 2 = 1/50 > 1/100`, the follower's cached position
— the no-over-close claim is false as stated for trigger orders. -/
theorem C1_counterexample :
    on_new_order
      { is_paused := false, copy_existing_orders := true, max_open_orders := none,
        current_orders := 0, your_position_size := 1/100, target_position_size := 1,
        auto_adjust_size := true, target_balance := 10, your_actual_balance := 1,
        simulated_balance := 1,
        sizer := { mode := "proportional", fixed_size := 1, portfolio_share := 1/10,
                   max_position_size := 10, max_total_exposure := 10 } }
      { oid := 1, coin := "ETH", side := "A", orderType := "Limit", sz := 2,
        limitPx := none, triggerPx := some 4, isTrigger := true,
        triggerCondition := "gt", reduceOnly := true }
      = NewOrderResult.trigger "ETH" OrderSide.sell (1/50) 4 true true true
    ∧ ¬ ((1/50 : ℚ) ≤ 1/100) := by
  with_unfolding_all decide

/-- Claim C1 (amended): no over-close holds for the fill-derived close path
unconditionally — every reduce-only submission of `on_order_fill` has size
at most the follower's cached position size — and for reduce-only trigger
orders of `on_new_order` it holds provided the target's order size does not
exceed the target's recorded position size (closeRatio ≤ 1), or the target
has no position record. -/
theorem C1_no_overclose_amended :
    (∀ (env : FillEnv) (fd : FillData) (sym : String) (side : OrderSide)
        (sz px : ℚ) (lev : ℤ) (lim : Bool),
      on_order_fill env fd = FillResult.submit sym side sz px lev true lim →
      sz ≤ env.your_position_size)
    ∧ (∀ (env : NewOrderEnv) (od : OrderData) (sym : String) (side : OrderSide)
        (sz tpx : ℚ) (istp : Bool),
      on_new_order env od = NewOrderResult.trigger sym side sz tpx istp true true →
      (|od.sz| ≤ env.target_position_size ∨ env.target_position_size ≤ 0) →
      sz ≤ env.your_position_size) := by
  constructor
  · intro env fd sym side sz px lev lim h
    exact (on_order_fill_submit env fd sym side sz px lev true lim h).2.2.2.2.2.2.2 rfl
  · intro env od sym side sz tpx istp h hratio
    obtain ⟨-, -, hyps, -, -, hsz, -, -⟩ := on_new_order_trigger env od sym side sz tpx istp true true h
    rw [hsz]
    by_cases htp : env.target_position_size > 0
    · rw [if_pos htp]
      have hle : |od.sz| ≤ env.target_position_size := by
        rcases hratio with hr | hr
        · exact hr
        · exact absurd htp (not_lt.mpr hr)
      have hq : |od.sz| / env.target_position_size ≤ 1 := (div_le_one htp).mpr hle
      calc env.your_position_size * (|od.sz| / env.target_position_size)
          ≤ env.your_position_size * 1 :=
            mul_le_mul_of_nonneg_left hq (le_of_lt hyps)
        _ = env.your_position_size := mul_one _
    · rw [if_neg htp]

/-- Claim C1 witness: the amended theorem applied to a concrete partial
close (target closes half of a position of 2; the follower holds 1 and
closes 1/2 ≤ 1) and a concrete in-ratio trigger order (target TP of 1 on a
position of 2; the follower holds 1/50 and the trigger is 1/100 ≤ 1/50). -/
theorem C1_witness :
    on_order_fill
      { is_paused := false, your_position_size := 1, target_position := none,
        target_balance := 10, your_actual_balance := 10, simulated_balance := 10,
        use_limit_orders := false, target_leverage := 1,
        sizer := { mode := "proportional", fixed_size := 1, portfolio_share := 1/10,
                   max_position_size := 10, max_total_exposure := 10 } }
      { oid := 2, coin := "BTC", side := "A", sz := 1, px := 100, dir := "Close Long",
        crossed := false, startPosition := 2 }
      = FillResult.submit "BTC" OrderSide.sell (1/2) 100 1 true false
    ∧ (1/2 : ℚ) ≤ 1
    ∧ on_new_order
        { is_paused := false, copy_existing_orders := true, max_open_orders := none,
          current_orders := 0, your_position_size := 1/50, target_position_size := 2,
          auto_adjust_size := true, target_balance := 10, your_actual_balance := 1,
          simulated_balance := 1,
          sizer := { mode := "proportional", fixed_size := 1, portfolio_share := 1/10,
                     max_position_size := 10, max_total_exposure := 10 } }
        { oid := 3, coin := "ETH", side := "A", orderType := "Limit", sz := 1,
          limitPx := none, triggerPx := some 4, isTrigger := true,
          triggerCondition := "gt", reduceOnly := true }
        = NewOrderResult.trigger "ETH" OrderSide.sell (1/100) 4 true true true
    ∧ (1/100 : ℚ) ≤ 1/50 := by
  have h1 : on_order_fill
      { is_paused := false, your_position_size := 1, target_position := none,
        target_balance := 10, your_actual_balance := 10, simulated_balance := 10,
        use_limit_orders := false, target_leverage := 1,
        sizer := { mode := "proportional", fixed_size := 1, portfolio_share := 1/10,
                   max_position_size := 10, max_total_exposure := 10 } }
      { oid := 2, coin := "BTC", side := "A", sz := 1, px := 100, dir := "Close Long",
        crossed := false, startPosition := 2 }
      = FillResult.submit "BTC" OrderSide.sell (1/2) 100 1 true false := by
    with_unfolding_all decide
  have h2 : on_new_order
      { is_paused := false, copy_existing_orders := true, max_open_orders := none,
        current_orders := 0, your_position_size := 1/50, target_position_size := 2,
        auto_adjust_size := true, target_balance := 10, your_actual_balance := 1,
        simulated_balance := 1,
        sizer := { mode := "proportional", fixed_size := 1, portfolio_share := 1/10,
                   max_position_size := 10, max_total_exposure := 10 } }
      { oid := 3, coin := "ETH", side := "A", orderType := "Limit", sz := 1,
        limitPx := none, triggerPx := some 4, isTrigger := true,
        triggerCondition := "gt", reduceOnly := true }
      = NewOrderResult.trigger "ETH" OrderSide.sell (1/100) 4 true true true := by
    with_unfolding_all decide
  refine ⟨h1, C1_no_overclose_amended.1 _ _ _ _ _ _ _ _ h1, h2, ?_⟩
  exact C1_no_overclose_amended.2 _ _ _ _ _ _ _ h2 (Or.inl (by norm_num))

end CopyTrader

namespace CopyTrader

/-- Claim C2: for every TP/SL trigger-order event that `on_new_order`
submits, the size equals the follower's current position size multiplied by
`closeRatio = targetOrderSize / targetCurrentPositionSize` (or the full
follower position when the target has no position record), the submission
is reduce-only, TP vs SL is determined by the pair (side, trigger
condition) with condition `gt` and SELL meaning take-profit, and the
executor attaches a limit price equal to the trigger price adjusted by 5%
slippage in the aggressive direction (rendered to 5 significant figures),
with `tpsl` set accordingly, `r = true` and grouping `normalTpsl`. -/
theorem C2_trigger_order_semantics (env : NewOrderEnv) (od : OrderData)
    (sym : String) (side : OrderSide) (sz tpx : ℚ) (istp mk ro : Bool)
    (h : on_new_order env od = NewOrderResult.trigger sym side sz tpx istp mk ro) :
    ro = true ∧ mk = true
    ∧ sz = (if env.target_position_size > 0 then
              env.your_position_size * (|od.sz| / env.target_position_size)
            else env.your_position_size)
    ∧ ((od.triggerCondition = "gt" ∧ istp = (side == OrderSide.sell))
       ∨ (od.triggerCondition = "lt" ∧ istp = (side == OrderSide.buy)))
    ∧ (∀ aidx szd : ℕ,
        (execute_trigger_order aidx szd side sz tpx istp true none true).r = true
        ∧ (execute_trigger_order aidx szd side sz tpx istp true none true).tpsl
            = (if istp then "tp" else "sl")
        ∧ (execute_trigger_order aidx szd side sz tpx istp true none true).p
            = g5 (if side == OrderSide.buy then tpx * (1 + 5/100) else tpx * (1 - 5/100))
        ∧ (execute_trigger_order aidx szd side sz tpx istp true none true).s
            = _format_size sz szd
        ∧ (execute_trigger_order aidx szd side sz tpx istp true none true).isMarket = false
        ∧ (execute_trigger_order aidx szd side sz tpx istp true none true).grouping
            = "normalTpsl") := by
  obtain ⟨hro, hmk, -, -, -, hsz, -, htpsl⟩ :=
    on_new_order_trigger env od sym side sz tpx istp mk ro h
  exact ⟨hro, hmk, hsz, htpsl, fun aidx szd => ⟨rfl, rfl, rfl, rfl, rfl, rfl⟩⟩

/-- Claim C2 witness (scenario S3): the target holds ETH 2.0 and places a
TP SELL of 1.0 at trigger 4000 with condition `gt`; the follower holds ETH
0.02.  The handler submits a reduce-only market trigger of size
0.02 × (1/2) = 0.01, and the executor's order carries `tpsl = "tp"`,
`r = true` and limit price `4000 × 0.95 = 3800`. -/
theorem C2_witness :
    on_new_order
      { is_paused := false, copy_existing_orders := true, max_open_orders := none,
        current_orders := 0, your_position_size := 1/50, target_position_size := 2,
        auto_adjust_size := true, target_balance := 100000, your_actual_balance := 1000,
        simulated_balance := 1000,
        sizer := { mode := "proportional", fixed_size := 100, portfolio_share := 1/100,
                   max_position_size := 1000, max_total_exposure := 5000 } }
      { oid := 1, coin := "ETH", side := "A", orderType := "Limit", sz := 1,
        limitPx := none, triggerPx := some 4000, isTrigger := true,
        triggerCondition := "gt", reduceOnly := true }
      = NewOrderResult.trigger "ETH" OrderSide.sell (1/100) 4000 true true true
    ∧ (1/100 : ℚ) = (1/50 : ℚ) * (|(1:ℚ)| / 2)
    ∧ (execute_trigger_order 1 4 OrderSide.sell (1/100) 4000 true true none true).r = true
    ∧ (execute_trigger_order 1 4 OrderSide.sell (1/100) 4000 true true none true).tpsl = "tp"
    ∧ (execute_trigger_order 1 4 OrderSide.sell (1/100) 4000 true true none true).p = 3800 := by
  have h : on_new_order
      { is_paused := false, copy_existing_orders := true, max_open_orders := none,
        current_orders := 0, your_position_size := 1/50, target_position_size := 2,
        auto_adjust_size := true, target_balance := 100000, your_actual_balance := 1000,
        simulated_balance := 1000,
        sizer := { mode := "proportional", fixed_size := 100, portfolio_share := 1/100,
                   max_position_size := 1000, max_total_exposure := 5000 } }
      { oid := 1, coin := "ETH", side := "A", orderType := "Limit", sz := 1,
        limitPx := none, triggerPx := some 4000, isTrigger := true,
        triggerCondition := "gt", reduceOnly := true }
      = NewOrderResult.trigger "ETH" OrderSide.sell (1/100) 4000 true true true := by
    norm_num [on_new_order]
    split <;> simp_all
  have hc := C2_trigger_order_semantics _ _ _ _ _ _ _ _ _ h
  have hp : (execute_trigger_order 1 4 OrderSide.sell (1/100) 4000 true true none true).p
      = g5 (4000 * (1 - 5/100)) := rfl
  have hg : g5 (4000 * (1 - 5/100)) = 3800 := by
    have h2 : (4000 : ℚ) * (1 - 5/100) = 3800 := by norm_num
    rw [h2]
    have hf : ⌊(3800:ℚ)⌋ = 3800 := by norm_num
    rw [g5, if_neg (by norm_num), if_pos (by norm_num), g5pos, qOrder10,
      if_pos (by norm_num), hf]
    have hl : natLog10 (Int.toNat 3800) = 3 := by decide
    rw [hl]
    push_cast
    have h3 : (3800:ℚ) * (10:ℚ) ^ (1:ℤ) = ((38000:ℤ):ℚ) := by norm_num
    rw [h3, rhe_intCast]
    norm_num
  refine ⟨h, by norm_num, (hc.2.2.2.2 1 4).1, ?_, ?_⟩
  · rw [(hc.2.2.2.2 1 4).2.1, if_pos rfl]
  · rw [hp, hg]

end CopyTrader

namespace CopyTrader

/-- Claim C4 counterexample: `on_new_position` submits a market order whose
notional is far below the $10 exchange minimum — the new-position copy path
performs no minimum-notional check.  The target opens 0.1 BTC at price 10
with ratio 1/10; the follower order of size 1/100 has notional 0.1 < 10 and
is submitted rather than skipped. -/
theorem C4_counterexample :
    on_new_position
      { is_paused := false, max_open_trades := none, current_trades := 0,
        max_account_equity := none, current_equity := 0, current_price := some 10,
        min_entry_quality_pct := 5, mode := "proportional", portfolio_share := 1/10,
        fixed_size := 1 }
      { coin := "BTC", szi := 1/10, entryPx := 10, leverage := 1 }
      = NewPositionResult.submitMarket "BTC" PositionSide.long (1/100) 1
    ∧ (1/100 : ℚ) * 10 < 10 := by
  with_unfolding_all decide

/-- Claim C4 (amended): the $10 minimum-notional gate is enforced on the
fill-copy path only — every order submitted by `on_order_fill` has
`size × price ≥ 10` — while the new-position path (`on_new_position`) and
the limit-order path submit without a notional check (see the
counterexample). -/
theorem C4_min_notional_amended (env : FillEnv) (fd : FillData)
    (sym : String) (side : OrderSide) (sz px : ℚ) (lev : ℤ) (ro lim : Bool)
    (h : on_order_fill env fd = FillResult.submit sym side sz px lev ro lim) :
    10 ≤ sz * px := by
  obtain ⟨-, hpx, -, -, -, -, hnot, -⟩ :=
    on_order_fill_submit env fd sym side sz px lev ro lim h
  rw [hpx]
  exact not_lt.mp hnot

/-- Claim C4 witness: the amended theorem applied to a concrete open fill
whose submission has notional exactly 10. -/
theorem C4_witness :
    on_order_fill
      { is_paused := false, your_position_size := 0, target_position := none,
        target_balance := 10, your_actual_balance := 10, simulated_balance := 10,
        use_limit_orders := false, target_leverage := 1,
        sizer := { mode := "proportional", fixed_size := 1, portfolio_share := 1/10,
                   max_position_size := 10, max_total_exposure := 10 } }
      { oid := 1, coin := "BTC", side := "B", sz := 1, px := 10, dir := "Open Long",
        crossed := false, startPosition := 0 }
      = FillResult.submit "BTC" OrderSide.buy 1 10 1 false false
    ∧ (10 : ℚ) ≤ 1 * 10 := by
  have h : on_order_fill
      { is_paused := false, your_position_size := 0, target_position := none,
        target_balance := 10, your_actual_balance := 10, simulated_balance := 10,
        use_limit_orders := false, target_leverage := 1,
        sizer := { mode := "proportional", fixed_size := 1, portfolio_share := 1/10,
                   max_position_size := 10, max_total_exposure := 10 } }
      { oid := 1, coin := "BTC", side := "B", sz := 1, px := 10, dir := "Open Long",
        crossed := false, startPosition := 0 }
      = FillResult.submit "BTC" OrderSide.buy 1 10 1 false false := by
    with_unfolding_all decide
  exact ⟨h, C4_min_notional_amended _ _ _ _ _ _ _ _ _ h⟩

/-- Claim C5: for every open that is copied — by `on_new_position` and by
the fill path `on_order_fill` — the submitted leverage equals
`clamp(round(targetLeverage), 1, maxLeverage(symbol))`, so it is always an
integer in `[1, maxLeverage(symbol)]`. -/
theorem C5_leverage_clamped :
    (∀ (t : ℚ) (sym : String),
      calculate_matching_leverage t sym
          = min (max (rhe t) 1) (get_max_leverage_for_asset sym)
        ∧ 1 ≤ calculate_matching_leverage t sym
        ∧ calculate_matching_leverage t sym ≤ get_max_leverage_for_asset sym)
    ∧ (∀ (env : NewPositionEnv) (pd : NewPositionData) (sym : String)
        (side : PositionSide) (qsz : ℚ) (lev : ℤ),
      on_new_position env pd = NewPositionResult.submitMarket sym side qsz lev →
      lev = calculate_matching_leverage pd.leverage sym
        ∧ 1 ≤ lev ∧ lev ≤ get_max_leverage_for_asset sym)
    ∧ (∀ (env : FillEnv) (fd : FillData) (sym : String) (side : OrderSide)
        (sz px : ℚ) (lev : ℤ) (ro lim : Bool),
      on_order_fill env fd = FillResult.submit sym side sz px lev ro lim →
      lev = calculate_matching_leverage env.target_leverage sym
        ∧ 1 ≤ lev ∧ lev ≤ get_max_leverage_for_asset sym) := by
  refine ⟨fun t sym => ⟨cml_eq t sym, cml_bounds t sym⟩, ?_, ?_⟩
  · intro env pd sym side qsz lev h
    obtain ⟨hsym, hlev, -⟩ := on_new_position_submit env pd sym side qsz lev h
    subst hsym
    exact ⟨hlev, hlev ▸ cml_bounds pd.leverage pd.coin⟩
  · intro env fd sym side sz px lev ro lim h
    obtain ⟨hsym, -, -, -, hlev, -⟩ := on_order_fill_submit env fd sym side sz px lev ro lim h
    subst hsym
    exact ⟨hlev, hlev ▸ cml_bounds env.target_leverage fd.coin⟩

/-- Claim C5 witness: the leverage clamp evaluated at target leverage 10.5
on SOL (rounds half-to-even to 10, within the cap 20), and the theorem
applied to a concrete `on_new_position` submission with that leverage. -/
theorem C5_witness :
    calculate_matching_leverage (21/2) "SOL" = 10
    ∧ 1 ≤ calculate_matching_leverage (21/2) "SOL"
    ∧ calculate_matching_leverage (21/2) "SOL" ≤ get_max_leverage_for_asset "SOL"
    ∧ on_new_position
        { is_paused := false, max_open_trades := none, current_trades := 0,
          max_account_equity := none, current_equity := 0, current_price := some 4,
          min_entry_quality_pct := 5, mode := "proportional", portfolio_share := 1/2,
          fixed_size := 1 }
        { coin := "SOL", szi := 1/5, entryPx := 4, leverage := 21/2 }
        = NewPositionResult.submitMarket "SOL" PositionSide.long (1/10) 10
    ∧ (10 : ℤ) = calculate_matching_leverage (21/2) "SOL" := by
  have h : on_new_position
      { is_paused := false, max_open_trades := none, current_trades := 0,
        max_account_equity := none, current_equity := 0, current_price := some 4,
        min_entry_quality_pct := 5, mode := "proportional", portfolio_share := 1/2,
        fixed_size := 1 }
      { coin := "SOL", szi := 1/5, entryPx := 4, leverage := 21/2 }
      = NewPositionResult.submitMarket "SOL" PositionSide.long (1/10) 10 := by
    with_unfolding_all decide
  refine ⟨by with_unfolding_all decide, (C5_leverage_clamped.1 (21/2) "SOL").2.1,
    (C5_leverage_clamped.1 (21/2) "SOL").2.2, h,
    (C5_leverage_clamped.2.1 _ _ _ _ _ _ h).1⟩

end CopyTrader

namespace CopyTrader

lemma nonceBe8_length (nonce : ℕ) : (nonceBe8 nonce).length = 8 := rfl

lemma nonceBe8_bytes_lt (nonce : ℕ) : ∀ b ∈ nonceBe8 nonce, b < 256 := by
  intro b hb
  simp only [nonceBe8, List.mem_cons, List.not_mem_nil, or_false] at hb
  rcases hb with h | h | h | h | h | h | h | h <;> subst h <;>
    exact Nat.mod_lt _ (by norm_num)

lemma beVal_nonceBe8 (nonce : ℕ) (h : nonce < 2 ^ 64) : beVal (nonceBe8 nonce) = nonce := by
  simp only [beVal, nonceBe8, List.foldl]
  norm_num
  omega

/-- Claim C6: the signed `connectionId` is the keccak of the msgpack action
bytes, followed by the nonce as exactly 8 big-endian bytes, followed by the
vault indicator (`0x00` alone when no vault, `0x01` then the 20 address
bytes); the phantom agent's `source` is `"a"`. -/
theorem C6_action_hash (keccak : List ℕ → List ℕ) (packed_action : List ℕ)
    (vault_address : Option (List ℕ)) (nonce : ℕ) (h : nonce < 2 ^ 64) :
    (sign_action_agent keccak packed_action vault_address nonce).connectionId
      = keccak (packed_action ++ nonceBe8 nonce ++ vault_indicator vault_address)
    ∧ (sign_action_agent keccak packed_action vault_address nonce).source = "a"
    ∧ (nonceBe8 nonce).length = 8
    ∧ beVal (nonceBe8 nonce) = nonce
    ∧ (∀ b ∈ nonceBe8 nonce, b < 256)
    ∧ vault_indicator none = [0]
    ∧ (∀ addr, vault_indicator (some addr) = 1 :: addr) :=
  ⟨rfl, rfl, nonceBe8_length nonce, beVal_nonceBe8 nonce h,
   nonceBe8_bytes_lt nonce, rfl, fun _ => rfl⟩

/-- Claim C6 witness: the theorem at a concrete nonce, with `keccak`
instantiated to the identity so the concatenation is visible. -/
theorem C6_witness :
    (1700000000000 : ℕ) < 2 ^ 64
    ∧ (sign_action_agent id [147] (some (List.replicate 20 0)) 1700000000000).connectionId
        = [147] ++ nonceBe8 1700000000000 ++ (1 :: List.replicate 20 0)
    ∧ beVal (nonceBe8 1700000000000) = 1700000000000 := by
  have h : (1700000000000 : ℕ) < 2 ^ 64 := by norm_num
  have c := C6_action_hash id [147] (some (List.replicate 20 0)) 1700000000000 h
  exact ⟨h, by rw [c.1, c.2.2.2.2.2.2]; rfl, c.2.2.2.1⟩

end CopyTrader

namespace CopyTrader

/-- Claim C8 counterexample: the order path performs no blocked-assets
check.  `_handle_orders` delivers a new DOGE order to `on_new_order` even
when `"DOGE"` is on the blocked list — the embedded `handle_orders` does
not even consult a blocklist, mirroring the source. -/
theorem C8_counterexample :
    handle_orders []
      [{ oid := 42, coin := "DOGE", side := "B", orderType := "limit", sz := 1,
         limitPx := some 1, triggerPx := none, isTrigger := false,
         triggerCondition := "", reduceOnly := false }]
      = [{ oid := 42, coin := "DOGE", side := "B", orderType := "limit", sz := 1,
           limitPx := some 1, triggerPx := none, isTrigger := false,
           triggerCondition := "", reduceOnly := false }]
    ∧ ("DOGE" : String) ∈ (["DOGE"] : List String)
    ∧ ("DOGE" : String).toUpper = "DOGE" :=
  ⟨rfl, by decide, by with_unfolding_all decide⟩

/-- Claim C8 (amended): the blocked-assets filter is applied on the fills
path and on the positions path — nothing delivered by `_handle_fills` or
`_handle_positions` concerns a blocked asset — but not on the orders path
(see the counterexample). -/
theorem C8_blocklist_amended :
    (∀ (blocked : List String) (fills : List FillData) (f : FillData),
      f ∈ handle_fills blocked fills → blocked.contains f.coin.toUpper = false)
    ∧ (∀ (blocked : List String) (last : List Position) (ps : List PosData)
        (ev : PositionEvent),
      ev ∈ handle_positions blocked last ps →
      blocked.contains ev.posData.coin.toUpper = false) := by
  constructor
  · intro blocked fills f hf
    have h := (List.mem_filter.mp hf).2
    simpa using h
  · intro blocked last ps ev hev
    simp only [handle_positions, List.mem_filterMap] at hev
    obtain ⟨pd, -, heq⟩ := hev
    by_cases hc : blocked.contains pd.coin.toUpper = true
    · rw [if_pos hc] at heq
      exact absurd heq (by simp)
    · rw [if_neg hc] at heq
      have hpd : ev.posData = pd := by
        split at heq
        · split at heq
          · injection heq with h
            subst h
            rfl
          · exact absurd heq (by simp)
        · split at heq
          · injection heq with h
            subst h
            rfl
          · split at heq
            · injection heq with h
              subst h
              rfl
            · exact absurd heq (by simp)
      rw [hpd]
      simpa using hc

/-- Claim C8 witness: a BTC fill passes the fills-path filter when DOGE is
blocked, and the theorem certifies its asset is not on the blocklist. -/
theorem C8_witness :
    ({ oid := 1, coin := "BTC", side := "B", sz := 1, px := 10, dir := "Open Long",
       crossed := false, startPosition := 0 } : FillData)
      ∈ handle_fills ["DOGE"]
        [{ oid := 1, coin := "BTC", side := "B", sz := 1, px := 10, dir := "Open Long",
           crossed := false, startPosition := 0 }]
    ∧ (["DOGE"] : List String).contains ("BTC" : String).toUpper = false := by
  have hmem : ({ oid := 1, coin := "BTC", side := "B", sz := 1, px := 10, dir := "Open Long",
                 crossed := false, startPosition := 0 } : FillData)
      ∈ handle_fills ["DOGE"]
        [{ oid := 1, coin := "BTC", side := "B", sz := 1, px := 10, dir := "Open Long",
           crossed := false, startPosition := 0 }] := by
    with_unfolding_all decide
  exact ⟨hmem, C8_blocklist_amended.1 ["DOGE"] _ _ hmem⟩

end CopyTrader
